import Mathlib

/-!
# Verification of the wal-g concurrent extraction pipeline

Shallow embedding of the extraction pipeline of this repository
(`internal` package: `ExtractAll` / `ExtractAllWithSleeper` /
`tryExtractFiles` / `extractFile` / `extractOne` /
`DecryptAndDecompressTar` / `EmptyWriteIgnorer`), together with proofs
about the embedded definitions.

Conventions of the embedding:
* byte streams are `List Nat`;
* Go `error` values are `Option String` (`none` = nil error) or an
  explicit error inductive where the error kind matters;
* the nondeterministic per-file runtime outcomes (network, filesystem)
  are oracle parameters, one per wave;
* machine-level concurrency is flattened: a wave's two goroutines per
  file run to completion and their recorded failures are collected,
  which is what the semaphore full-drain in the source guarantees
  before `isFailed` is enumerated.
-/

namespace WalG

/-- A remote file handle (`ReaderMaker` in the source): an opaque,
re-openable handle with a logical path.  `id` models Go interface-value
identity: two handles with the same path may still be distinct keys of
the `sync.Map` used to collect failures. -/
structure ReaderMaker where
  id : Nat
  path : String
deriving DecidableEq, Repr

/-- Embedding of Go `filepath.Ext` (and `path.Ext`): scan the path
backwards; stop at a path separator; the extension is the suffix that
starts at the last dot of the final path element, dot included; empty
if the final element has no dot.  Helper on reversed character lists:
`acc` holds the characters already passed over, in original order. -/
def goExtAux : List Char → List Char → Option (List Char)
  | [], _ => none
  | c :: rest, acc =>
    if c = '/' then none
    else if c = '.' then some (c :: acc)
    else goExtAux rest (c :: acc)

/-- Embedding of Go `filepath.Ext` / `path.Ext`. -/
def goFilepathExt (p : String) : String :=
  match goExtAux p.data.reverse [] with
  | some s => String.mk s
  | none => ""

/-- The logical name `tryExtractFiles` passes to `FileExtractor.Extract`:
`filePath[:len(filePath)-len(filepath.Ext(filePath))]`
(source lines 270-272). -/
def extractCallName (filePath : String) : String :=
  String.mk (filePath.data.take (filePath.data.length - (goFilepathExt filePath).data.length))

/-- Embedding of `utility.GetFileExtension`, used by
`DecryptAndDecompressTar`.  Modelled from the spec: the function itself
is not among the given source files; the spec resolves "the codec from
the file's extension", and the surrounding code passes
`readerMaker.Path()`.  Modelled as `path.Ext` without the leading dot
(empty when there is no dot in the final path element). -/
def getFileExtension (p : String) : String :=
  match (goFilepathExt p).data with
  | [] => ""
  | _ :: rest => String.mk rest

/-- Embedding of Go `strings.Join(elems, "\n")` as used for the
aggregate failure message. -/
def joinNewline : List String → String
  | [] => ""
  | [a] => a
  | a :: b :: rest => a ++ "\n" ++ joinNewline (b :: rest)

/-- `readerMakersToFilePaths` from the source: the paths of a list of
handles, in order. -/
def readerMakersToFilePaths (files : List ReaderMaker) : List String :=
  files.map (·.path)

/-- The aggregate error message built by `ExtractAllWithSleeper` when a
whole wave fails at minimum concurrency:
`errors.Errorf("failed to extract files:\n%s\n", strings.Join(paths, "\n"))`. -/
def aggregateErrorMessage (failed : List ReaderMaker) : String :=
  "failed to extract files:\n" ++ joinNewline (readerMakersToFilePaths failed) ++ "\n"

/-- The base message of `newNoFilesToExtractError`. -/
def noFilesToExtractMessage : String :=
  "ExtractAll: did not provide files to extract"

/-! ## Go `path.Clean` and `path.Join`, used by `RawFileExtractor.Extract` -/

/-- Split a character list at `'/'` (the slash-separated elements of a
path, like `strings.Split(p, "/")`); `acc` holds the current element's
characters in reverse. -/
def splitSlashAux : List Char → List Char → List String
  | [], acc => [String.mk acc.reverse]
  | c :: rest, acc =>
    if c = '/' then String.mk acc.reverse :: splitSlashAux rest []
    else splitSlashAux rest (c :: acc)

/-- The slash-separated elements of a path. -/
def splitSlash (p : String) : List String :=
  splitSlashAux p.data []

/-- Element processing of Go `path.Clean`, expressed on the
slash-separated elements of the path: drop empty and `.` elements,
let `..` cancel a preceding element (and disappear at the root of a
rooted path). -/
def cleanElems (rooted : Bool) : List String → List String → List String
  | stack, [] => stack.reverse
  | stack, e :: rest =>
    if e = "" ∨ e = "." then cleanElems rooted stack rest
    else if e = ".." then
      match stack with
      | top :: stack' =>
        if top = ".." then cleanElems rooted (e :: stack) rest
        else cleanElems rooted stack' rest
      | [] => if rooted then cleanElems rooted [] rest
              else cleanElems rooted [".."] rest
    else cleanElems rooted (e :: stack) rest

/-- Embedding of Go `path.Clean`: shortest lexical equivalent of the
path (collapse slashes, drop `.`, resolve `..`); `"."` for an empty
result, `"/"` for an empty rooted result. -/
def goPathClean (p : String) : String :=
  if p = "" then "."
  else
    let rooted := p.data.head? == some '/'
    let elems := cleanElems rooted [] (splitSlash p)
    if elems = [] then (if rooted then "/" else ".")
    else if rooted then "/" ++ joinSlash elems
    else joinSlash elems
where
  /-- `strings.Join(elems, "/")`. -/
  joinSlash : List String → String
    | [] => ""
    | [a] => a
    | a :: b :: rest => a ++ "/" ++ joinSlash (b :: rest)

/-- Embedding of Go `path.Join` for two elements: concatenate the
non-empty ones with a slash and clean the result; empty when both are
empty. -/
def goPathJoin (a b : String) : String :=
  if a = "" ∧ b = "" then ""
  else if a = "" then goPathClean b
  else if b = "" then goPathClean a
  else goPathClean (a ++ "/" ++ b)

/-! ## `extractFile` (the raw-file extractor's worker)

The filesystem effects are an oracle: the outcomes the OS would give to
the four operations attempted on the destination path.  `openErr` is
the error `os.OpenFile` would return; the source ASSIGNS this error but
never checks it (it is overwritten by the `io.Copy` result), so when
the open fails `file` is a nil `*os.File` and the copy immediately
fails with `os.ErrInvalid` ("invalid argument") from the file's
validity check; the sync phase is then never reached.  `copyErr` and
`syncErr` are the outcomes of `io.Copy` and `file.Sync` on a validly
opened file.  `errors.Wrap(nil, msg)` is nil, hence success is `none`
only when copy and sync both succeeded. -/

structure ExtractFilePhases where
  mkdirErr : Option String
  openErr : Option String
  copyErr : Option String
  syncErr : Option String
deriving DecidableEq, Repr

/-- Embedding of `extractFile` (source lines 110-127). -/
def extractFile (ph : ExtractFilePhases) : Option String :=
  match ph.mkdirErr with
  | some e => some e
  | none =>
    match (match ph.openErr with
           | some _ => some "invalid argument"
           | none => ph.copyErr) with
    | some e => some ("Extract: copy failed: " ++ e)
    | none =>
      match ph.syncErr with
      | some e => some ("Extract: sync failed: " ++ e)
      | none => none

/-- Embedding of `RawFileExtractor`: `Extract(reader, filePath)` calls
`extractFile(reader, path.Join(baseDirectory, filePath))`.  The
destination path actually written is the joined one; the phase
outcomes at that path are the oracle. -/
structure RawFileExtractor where
  baseDirectory : String
deriving DecidableEq, Repr

/-- The destination path `RawFileExtractor.Extract` hands to
`extractFile` for a given logical file path. -/
def RawFileExtractor.extractTarget (extractor : RawFileExtractor) (filePath : String) : String :=
  goPathJoin extractor.baseDirectory filePath

/-- `RawFileExtractor.Extract` itself: the outcome oracle is indexed by
the destination path, so that the oracle consulted is the one at the
joined path. -/
def RawFileExtractor.Extract (extractor : RawFileExtractor)
    (phasesAt : String → ExtractFilePhases) (filePath : String) : Option String :=
  extractFile (phasesAt (extractor.extractTarget filePath))

/-! ## `EmptyWriteIgnorer` -/

/-- Embedding of `EmptyWriteIgnorer.Write` (source lines 103-108): a
zero-length buffer returns `(0, nil)` without touching the underlying
`WriteCloser`; otherwise the write is delegated unchanged.  The
underlying writer is an oracle `underlying : List Nat → Nat × Option String`
(count written and error); the boolean records whether the underlying
writer was invoked. -/
def emptyWriteIgnorerWrite (underlying : List Nat → Nat × Option String)
    (p : List Nat) : (Nat × Option String) × Bool :=
  if p.length = 0 then ((0, none), false)
  else (underlying p, true)

/-- Driving a sequence of writes through the `EmptyWriteIgnorer` into a
well-behaved pipe (each forwarded write is appended downstream): the
list of chunks the downstream reader receives, in order. -/
def ignorerDownstream : List (List Nat) → List (List Nat)
  | [] => []
  | p :: rest =>
    let r := emptyWriteIgnorerWrite (fun q => (q.length, none)) p
    if r.2 then p :: ignorerDownstream rest
    else ignorerDownstream rest

/-! ## `extractOne` (the tar state machine) -/

/-- One tar entry header, as handed to the interpreter. -/
structure TarHeader where
  name : String
  typeflag : Nat
  size : Nat
deriving DecidableEq, Repr

/-- One result of `tarReader.Next()`: a well-formed header or a parse
error.  A decoded stream is a list of these; after the list is
exhausted, `Next` returns `io.EOF`. -/
inductive TarNext where
  | entry (h : TarHeader)
  | parseFailure (msg : String)
deriving DecidableEq, Repr

/-- Embedding of `extractOne` (source lines 131-149).  The interpreter
is `interpret : TarHeader → Option String` (its per-entry outcome).
Returns the headers `Interpret` was invoked with, in order, and the
final error (`none` = clean success at end-of-archive). -/
def extractOne (interpret : TarHeader → Option String) :
    List TarNext → List TarHeader × Option String
  | [] => ([], none)
  | .parseFailure e :: _ => ([], some ("extractOne: tar extract failed: " ++ e))
  | .entry h :: rest =>
    match interpret h with
    | some e => ([h], some ("extractOne: Extract failed: " ++ e))
    | none =>
      let r := extractOne interpret rest
      (h :: r.1, r.2)

/-! ## `DecryptAndDecompressTar` -/

/-- A source handle as `DecryptAndDecompressTar` sees it (`ReaderMaker`
interface): a path, and the outcome of opening it for streaming read. -/
structure SourceHandle where
  path : String
  openResult : Except String (List Nat)
deriving Repr

/-- One registered decompressor: its extension, and the bytes it writes
to its destination together with its error outcome, as a function of
the source bytes. -/
structure Decompressor where
  fileExt : String
  decompress : List Nat → List Nat × Option String

/-- The error kinds `DecryptAndDecompressTar` can return, wrapping as
the source wraps. -/
inductive DDError where
  | openFailed (msg : String)
  | decryptFailed (msg : String)
  | tarCopyFailed (msg : String)
  | decompressionFailed (ext : String) (msg : String)
  | unsupportedFileType (path : String) (ext : String)
deriving DecidableEq, Repr

/-- The rendered message of each error kind
(`newUnsupportedFileTypeError` is source lines 53-55). -/
def DDError.message : DDError → String
  | .openFailed e => "DecryptAndDecompressTar: failed to create new reader: " ++ e
  | .decryptFailed e => "DecryptAndDecompressTar: decrypt failed: " ++ e
  | .tarCopyFailed e => "DecryptAndDecompressTar: tar extract failed: " ++ e
  | .decompressionFailed ext e =>
      "DecryptAndDecompressTar: " ++ ext ++ " decompress failed. Is archive encrypted?: " ++ e
  | .unsupportedFileType p ext =>
      "WAL-G does not support the file format '" ++ ext ++ "' in '" ++ p ++ "'"

/-- What one call of `DecryptAndDecompressTar` did: the bytes written
to the destination writer, which decompressor (by extension) was
invoked if any, and the returned error. -/
structure DDResult where
  written : List Nat
  invokedDecompressor : Option String
  error : Option DDError
deriving Repr

/-- The optional decryption step: `crypter.Decrypt` when a crypter is
configured, the identity otherwise. -/
def applyCrypter (crypter : Option (List Nat → Except String (List Nat)))
    (content : List Nat) : Except String (List Nat) :=
  match crypter with
  | none => .ok content
  | some d => d content

/-- Embedding of `DecryptAndDecompressTar` (source lines 154-195):
open the source, optionally decrypt, then dispatch on the file
extension: `"tar"` streams through verbatim; otherwise the FIRST
registered decompressor with a matching extension is invoked (the loop
returns on the first match whether it succeeds or fails); if none
matches, the unsupported-file-type error. -/
def DecryptAndDecompressTar (decompressors : List Decompressor)
    (crypter : Option (List Nat → Except String (List Nat)))
    (source : SourceHandle) : DDResult :=
  match source.openResult with
  | .error e => ⟨[], none, some (.openFailed e)⟩
  | .ok content =>
    match applyCrypter crypter content with
    | .error e => ⟨[], none, some (.decryptFailed e)⟩
    | .ok stream =>
      let fileExtension := getFileExtension source.path
      if fileExtension = "tar" then ⟨stream, none, none⟩
      else
        match decompressors.find? (fun d => d.fileExt = fileExtension) with
        | some d =>
          let r := d.decompress stream
          match r.2 with
          | none => ⟨r.1, some d.fileExt, none⟩
          | some e => ⟨r.1, some d.fileExt, some (.decompressionFailed d.fileExt e)⟩
        | none => ⟨[], none, some (.unsupportedFileType source.path fileExtension)⟩

/-! ## `tryExtractFiles` and the retry loop of `ExtractAllWithSleeper`

A wave's per-file runtime outcomes are oracles:
* `decodeErr f` — the error (if any) with which the decode goroutine of
  file `f` finished (`DecryptAndDecompressTar`'s outcome);
* `extractErr name` — the error (if any) of `fileExtractor.Extract`
  when called with logical name `name`.
A file is recorded in the `sync.Map` of failures when either goroutine
errored; the map is enumerated only after both semaphores fully drain,
so the failed set is exactly the set of files with a recorded failure,
each at most once (one key per handle).  `List.dedup` reflects that a
handle occurring twice in the input is a single `sync.Map` key. -/

/-- Embedding of `tryExtractFiles` (source lines 233-299): the failed
subset of a wave. -/
def tryExtractFiles (decodeErr : ReaderMaker → Option String)
    (extractErr : String → Option String) (files : List ReaderMaker) :
    List ReaderMaker :=
  (files.filter fun f =>
    (decodeErr f).isSome || (extractErr (extractCallName f.path)).isSome).dedup

/-- The `Extract` calls `tryExtractFiles` issues: one per input file,
in slice order, each with the file's path stripped of its
`filepath.Ext` suffix (source lines 267-272). -/
def tryExtractFilesCalls (files : List ReaderMaker) : List String :=
  files.map fun f => extractCallName f.path

/-- The exponential backoff sleeper (`NewExponentialSleeper(min, max)`).
Modelled from the spec: the sleeper implementation is not among the
given source files; the spec's Sleeper component exposes "sleep once"
and "sleep, doubling the wait up to the max" with the configured
min/max bounds.  `sleep` returns the duration slept and the successor
state. -/
structure ExponentialSleeper where
  sleepDuration : Nat
  sleepDurationBound : Nat
deriving DecidableEq, Repr

/-- One `Sleep()` call: sleep the current duration, then double it,
capped at the bound. -/
def ExponentialSleeper.sleepStep (s : ExponentialSleeper) : Nat × ExponentialSleeper :=
  (s.sleepDuration, ⟨min (s.sleepDuration * 2) s.sleepDurationBound, s.sleepDurationBound⟩)

def NewExponentialSleeper (lo hi : Nat) : ExponentialSleeper := ⟨lo, hi⟩

/-- `MinExtractRetryWait = time.Minute`, in nanoseconds. -/
def MinExtractRetryWait : Nat := 60000000000

/-- `MaxExtractRetryWait = 5 * time.Minute`, in nanoseconds. -/
def MaxExtractRetryWait : Nat := 5 * 60000000000

/-- The final outcome of `ExtractAllWithSleeper`. -/
inductive ExtractAllResult where
  | success
  | noFilesToExtract
  | aggregateFailure (failed : List ReaderMaker)
deriving DecidableEq, Repr

/-- A full run of the retry loop: the waves attempted (concurrency
level and file set of each, in order), the durations of the sleeps
performed between waves, in order, and the returned value. -/
structure RunTrace where
  waves : List (Nat × List ReaderMaker)
  sleeps : List Nat
  result : ExtractAllResult
deriving Repr

/-- Helper bound used by the termination argument: a wave's failed
subset is no longer than its input. -/
theorem tryExtractFiles_length_le (decodeErr : ReaderMaker → Option String)
    (extractErr : String → Option String) (files : List ReaderMaker) :
    (tryExtractFiles decodeErr extractErr files).length ≤ files.length :=
  le_trans (List.Sublist.length_le (List.dedup_sublist _))
    (List.length_filter_le _ _)

/-- Embedding of the retry loop of `ExtractAllWithSleeper` (source
lines 215-227).  Loop state: current run, current concurrency, sleeper
state; `waveIdx` indexes the oracles so each wave may have different
runtime outcomes.  Faithful branch structure: while the current run is
non-empty, compute the failed subset; if concurrency > 1 halve it,
else if the whole run failed return the aggregate error (before any
sleep); then the failed subset becomes the next run, sleeping first
when it is non-empty. -/
def extractLoop (decodeErr : Nat → ReaderMaker → Option String)
    (extractErr : Nat → String → Option String) (waveIdx : Nat)
    (currentRun : List ReaderMaker) (conc : Nat)
    (sleeper : ExponentialSleeper) : RunTrace :=
  if hrun : currentRun = [] then ⟨[], [], .success⟩
  else
    let failed := tryExtractFiles (decodeErr waveIdx) (extractErr waveIdx) currentRun
    if hc : 1 < conc then
      if hf : failed = [] then ⟨[(conc, currentRun)], [], .success⟩
      else
        let s := sleeper.sleepStep
        let rest := extractLoop decodeErr extractErr (waveIdx + 1) failed (conc / 2) s.2
        ⟨(conc, currentRun) :: rest.waves, s.1 :: rest.sleeps, rest.result⟩
    else
      if hfail : failed.length = currentRun.length then
        ⟨[(conc, currentRun)], [], .aggregateFailure failed⟩
      else
        if hf : failed = [] then ⟨[(conc, currentRun)], [], .success⟩
        else
          let s := sleeper.sleepStep
          let rest := extractLoop decodeErr extractErr (waveIdx + 1) failed conc s.2
          ⟨(conc, currentRun) :: rest.waves, s.1 :: rest.sleeps, rest.result⟩
termination_by conc + currentRun.length
decreasing_by
  · have h1 : (tryExtractFiles (decodeErr waveIdx) (extractErr waveIdx) currentRun).length
        ≤ currentRun.length := tryExtractFiles_length_le _ _ _
    have h2 : conc / 2 < conc := Nat.div_lt_self (by omega) (by omega)
    omega
  · have h1 : (tryExtractFiles (decodeErr waveIdx) (extractErr waveIdx) currentRun).length
        ≤ currentRun.length := tryExtractFiles_length_le _ _ _
    have h3 : failed.length
        = (tryExtractFiles (decodeErr waveIdx) (extractErr waveIdx) currentRun).length := rfl
    omega

/-- Embedding of `ExtractAllWithSleeper` (source lines 205-230): empty
input is rejected with the no-files-to-extract error before any wave
runs; otherwise the retry loop starts on the whole list at the
configured maximum concurrency (`GetMaxDownloadConcurrency`). -/
def ExtractAllWithSleeper (decodeErr : Nat → ReaderMaker → Option String)
    (extractErr : Nat → String → Option String) (files : List ReaderMaker)
    (maxConcurrency : Nat) (sleeper : ExponentialSleeper) : RunTrace :=
  if files = [] then ⟨[], [], .noFilesToExtract⟩
  else extractLoop decodeErr extractErr 0 files maxConcurrency sleeper

/-- Embedding of `ExtractAll` (source lines 201-203): delegates with a
fresh exponential sleeper over the default retry bounds. -/
def ExtractAll (decodeErr : Nat → ReaderMaker → Option String)
    (extractErr : Nat → String → Option String) (files : List ReaderMaker)
    (maxConcurrency : Nat) : RunTrace :=
  ExtractAllWithSleeper decodeErr extractErr files maxConcurrency
    (NewExponentialSleeper MinExtractRetryWait MaxExtractRetryWait)

/-- The successive sleep durations of a run form a
double-then-cap chain: each sleep is the sleeper's current duration,
and the duration after a sleep is twice the slept one, capped at the
bound.  Nothing ever resets it. -/
def isBackoffChain (bound : Nat) : Nat → List Nat → Prop
  | _, [] => True
  | d, x :: rest => x = d ∧ isBackoffChain bound (min (d * 2) bound) rest

/-- The name-stripping function as the CLAIM words it (for comparison
with the embedded code): the final extension is whatever follows the
last `'.'` anywhere in the path, regardless of separators; a path with
no `'.'` is passed unchanged. -/
def claimExtAux : List Char → List Char → Option (List Char)
  | [], _ => none
  | c :: rest, acc =>
    if c = '.' then some (c :: acc) else claimExtAux rest (c :: acc)

/-- The claim's version of the logical name (strip from the last dot
of the WHOLE path). -/
def extractCallNameClaim (p : String) : String :=
  match claimExtAux p.data.reverse [] with
  | some s => String.mk (p.data.take (p.data.length - s.length))
  | none => p

/-- The name-stripping function as amended: the final extension is
whatever follows the last `'.'` of the FINAL slash-separated path
element; a path whose final element has no dot is passed unchanged.
Written independently of the embedded `goFilepathExt` (via
`takeWhile` over the reversed characters) to be compared with it. -/
def stripFinalElemExt (p : String) : String :=
  let revName := p.data.reverse.takeWhile fun c => c != '/'
  if '.' ∈ revName then
    String.mk
      (p.data.take (p.data.length - ((revName.takeWhile fun c => c != '.').length + 1)))
  else p

/-- The rendered error message of a run's result: the empty string on
success, the `newNoFilesToExtractError` base message, or the
newline-joined aggregate message of the permanently failed files. -/
def ExtractAllResult.message : ExtractAllResult → String
  | .success => ""
  | .noFilesToExtract => noFilesToExtractMessage
  | .aggregateFailure failed => aggregateErrorMessage failed

/-! ## Helper lemmas -/

/-- Membership in a newline-joined list yields the member as a
contiguous character run of the joined string. -/
theorem joinNewline_mem_substring {a : String} :
    ∀ {l : List String}, a ∈ l →
      ∃ pre post : List Char, (joinNewline l).data = pre ++ a.data ++ post := by
  intro l
  induction l with
  | nil => intro h; cases h
  | cons b t ih =>
    intro h
    rcases List.mem_cons.mp h with hb | ht
    · subst hb
      cases t with
      | nil => exact ⟨[], [], by simp [joinNewline]⟩
      | cons c t' =>
        refine ⟨[], ('\n' :: (joinNewline (c :: t')).data), ?_⟩
        simp [joinNewline, String.data_append]
    · have hne : t ≠ [] := by intro hnil; rw [hnil] at ht; cases ht
      cases t with
      | nil => exact absurd rfl hne
      | cons c t' =>
        obtain ⟨pre, post, hp⟩ := ih ht
        refine ⟨b.data ++ ['\n'] ++ pre, post, ?_⟩
        simp [joinNewline, String.data_append, hp]

/-- The failed subset is a sublist-based subset of the wave's input. -/
theorem tryExtractFiles_subset (decodeErr : ReaderMaker → Option String)
    (extractErr : String → Option String) (files : List ReaderMaker) :
    tryExtractFiles decodeErr extractErr files ⊆ files :=
  fun _ h => List.filter_subset' _ ((List.dedup_sublist _).subset h)

/-- The failed subset never records a handle twice. -/
theorem tryExtractFiles_nodup (decodeErr : ReaderMaker → Option String)
    (extractErr : String → Option String) (files : List ReaderMaker) :
    (tryExtractFiles decodeErr extractErr files).Nodup :=
  List.nodup_dedup _

/-! ## Claim theorems -/

/-- C5: calling `ExtractAllWithSleeper` (or `ExtractAll`) with an empty
file list always returns the no-files-to-extract error and performs no
extraction work (no wave is attempted, no sleep happens); it never
returns silent success on empty input. -/
theorem extractAll_empty_input_rejected
    (decodeErr : Nat → ReaderMaker → Option String)
    (extractErr : Nat → String → Option String) (maxConcurrency : Nat)
    (sleeper : ExponentialSleeper) :
    ExtractAllWithSleeper decodeErr extractErr [] maxConcurrency sleeper
        = ⟨[], [], .noFilesToExtract⟩ ∧
      ExtractAll decodeErr extractErr [] maxConcurrency = ⟨[], [], .noFilesToExtract⟩ ∧
      (ExtractAllWithSleeper decodeErr extractErr [] maxConcurrency sleeper).result
        ≠ .success := by
  refine ⟨rfl, rfl, ?_⟩
  intro h
  simp [ExtractAllWithSleeper] at h

/-- C4 (code bug witness): when `os.OpenFile` fails on the destination
(and the directory creation succeeded, and copy and sync would have
succeeded on a valid file), `extractFile` does not report the open
failure: the open error is assigned to `err` but never checked, `err`
is overwritten by `io.Copy`, which fails on the nil `*os.File` with
`os.ErrInvalid`, so the returned error is labelled as the COPY phase
with "invalid argument", and the original open error message is lost. -/
theorem extractFile_open_failure_misreported :
    extractFile ⟨none, some "open /dest/base/file: is a directory", none, none⟩
      = some "Extract: copy failed: invalid argument" := by
  decide

/-- C6: when the file extension is neither `"tar"` nor the extension of
any registered decompressor (and the source opened and decrypted
fine), `DecryptAndDecompressTar` invokes no decompressor, writes
nothing to the destination writer, and returns the
unsupported-file-type error, whose message names both the extension
and the path. -/
theorem decryptAndDecompressTar_unsupported_extension
    (decompressors : List Decompressor)
    (crypter : Option (List Nat → Except String (List Nat)))
    (source : SourceHandle) (content stream : List Nat)
    (hopen : source.openResult = .ok content)
    (hdecrypt : applyCrypter crypter content = .ok stream)
    (htar : getFileExtension source.path ≠ "tar")
    (hnomatch : ∀ d ∈ decompressors, d.fileExt ≠ getFileExtension source.path) :
    DecryptAndDecompressTar decompressors crypter source
        = ⟨[], none, some (.unsupportedFileType source.path (getFileExtension source.path))⟩ ∧
      ∃ pre mid post : List Char,
        (DDError.message
            (.unsupportedFileType source.path (getFileExtension source.path))).data
          = pre ++ (getFileExtension source.path).data ++ mid ++ source.path.data ++ post := by
  constructor
  · have hfind : decompressors.find? (fun d => d.fileExt = getFileExtension source.path)
        = none := by
      apply List.find?_eq_none.mpr
      intro d hd
      simpa using hnomatch d hd
    simp [DecryptAndDecompressTar, hopen, hdecrypt, htar, hfind]
  · refine ⟨"WAL-G does not support the file format '".data, "' in '".data, "'".data, ?_⟩
    simp [DDError.message, String.data_append]

/-- C6 witness: a source named `data.xyz` with only a `gz` decompressor
registered ends in the unsupported-file-type error naming `xyz` and
`data.xyz`. -/
theorem decryptAndDecompressTar_unsupported_extension_witness :
    DecryptAndDecompressTar [⟨"gz", fun s => (s, none)⟩] none ⟨"data.xyz", .ok [1, 2]⟩
        = ⟨[], none, some (.unsupportedFileType "data.xyz" "xyz")⟩ ∧
      ∃ pre mid post : List Char,
        (DDError.message (.unsupportedFileType "data.xyz" "xyz")).data
          = pre ++ "xyz".data ++ mid ++ "data.xyz".data ++ post := by
  have h := decryptAndDecompressTar_unsupported_extension
    [⟨"gz", fun s => (s, none)⟩] none ⟨"data.xyz", .ok [1, 2]⟩ [1, 2] [1, 2]
    rfl rfl (by decide)
    (by intro d hd
        simp only [List.mem_singleton] at hd
        subst hd
        decide)
  have hx : getFileExtension (SourceHandle.mk "data.xyz" (.ok [1, 2])).path = "xyz" := by decide
  constructor
  · rw [← hx]; exact h.1
  · rw [show ("xyz" : String) = getFileExtension (SourceHandle.mk "data.xyz" (.ok [1, 2])).path from hx.symm]
    exact h.2

/-- C7: `extractOne` interprets a well-formed tar stream entry by
entry, strictly in stream order, invoking `Interpret` exactly once per
entry with that entry's header.  Conjuncts: (1) a stream of N
well-formed entries on which the interpreter succeeds produces exactly
the N headers as invocations, in order, and a clean success; (2) zero
entries is a clean success; (3) the first interpreter error wraps and
returns immediately, the failing entry being the last one interpreted;
(4) the first header-parse error wraps and returns immediately with no
further entry interpreted. -/
theorem extractOne_fanout_in_order :
    (∀ (interpret : TarHeader → Option String) (hs : List TarHeader),
        (∀ h ∈ hs, interpret h = none) →
        extractOne interpret (hs.map .entry) = (hs, none)) ∧
      (∀ interpret : TarHeader → Option String, extractOne interpret [] = ([], none)) ∧
      (∀ (interpret : TarHeader → Option String) (pre : List TarHeader)
          (h : TarHeader) (rest : List TarNext) (e : String),
        (∀ h' ∈ pre, interpret h' = none) → interpret h = some e →
        extractOne interpret (pre.map .entry ++ .entry h :: rest)
          = (pre ++ [h], some ("extractOne: Extract failed: " ++ e))) ∧
      (∀ (interpret : TarHeader → Option String) (pre : List TarHeader)
          (msg : String) (rest : List TarNext),
        (∀ h' ∈ pre, interpret h' = none) →
        extractOne interpret (pre.map .entry ++ .parseFailure msg :: rest)
          = (pre, some ("extractOne: tar extract failed: " ++ msg))) := by
  refine ⟨?_, fun _ => rfl, ?_, ?_⟩
  · intro interpret hs hok
    induction hs with
    | nil => rfl
    | cons h t ih =>
      have hh : interpret h = none := hok h (List.mem_cons_self h t)
      simp only [List.map_cons, extractOne, hh]
      rw [ih fun h' hm => hok h' (List.mem_cons_of_mem h hm)]
  · intro interpret pre h rest e hok hfail
    induction pre with
    | nil => simp [extractOne, hfail]
    | cons p t ih =>
      have hp : interpret p = none := hok p (List.mem_cons_self p t)
      simp only [List.map_cons, List.cons_append, extractOne, hp]
      rw [List.append_eq, ih fun h' hm => hok h' (List.mem_cons_of_mem p hm)]
  · intro interpret pre msg rest hok
    induction pre with
    | nil => simp [extractOne]
    | cons p t ih =>
      have hp : interpret p = none := hok p (List.mem_cons_self p t)
      simp only [List.map_cons, List.cons_append, extractOne, hp]
      rw [List.append_eq, ih fun h' hm => hok h' (List.mem_cons_of_mem p hm)]

/-- C7 witness: the spec's scenario — two regular files and one
directory, interpreter succeeding everywhere — yields exactly three
invocations in stream order, with the matching headers, plus the
error cases at concrete inputs. -/
theorem extractOne_fanout_in_order_witness :
    extractOne (fun _ => none)
        ([⟨"base/a", 0, 7⟩, ⟨"base/b", 0, 3⟩, ⟨"base/d", 5, 0⟩].map .entry)
      = ([⟨"base/a", 0, 7⟩, ⟨"base/b", 0, 3⟩, ⟨"base/d", 5, 0⟩], none) ∧
    extractOne (fun h => if h.name = "bad" then some "boom" else none)
        ([TarNext.entry ⟨"ok", 0, 1⟩, .entry ⟨"bad", 0, 1⟩, .entry ⟨"after", 0, 1⟩])
      = ([⟨"ok", 0, 1⟩, ⟨"bad", 0, 1⟩], some "extractOne: Extract failed: boom") ∧
    extractOne (fun _ => none)
        ([TarNext.entry ⟨"ok", 0, 1⟩, .parseFailure "unexpected EOF", .entry ⟨"after", 0, 1⟩])
      = ([⟨"ok", 0, 1⟩], some "extractOne: tar extract failed: unexpected EOF") := by
  refine ⟨extractOne_fanout_in_order.1 _ _ (fun _ _ => rfl), ?_, ?_⟩
  · have h := extractOne_fanout_in_order.2.2.1
      (fun h => if h.name = "bad" then some "boom" else none)
      [⟨"ok", 0, 1⟩] ⟨"bad", 0, 1⟩ [.entry ⟨"after", 0, 1⟩] "boom"
      (by intro h' hm; simp only [List.mem_singleton] at hm; subst hm; decide)
      (by decide)
    simpa using h
  · have h := extractOne_fanout_in_order.2.2.2 (fun _ => none)
      [⟨"ok", 0, 1⟩] "unexpected EOF" [.entry ⟨"after", 0, 1⟩]
      (fun _ _ => rfl)
    simpa using h

/-- C9: `EmptyWriteIgnorer.Write` swallows zero-length writes without
touching the underlying `WriteCloser` and delegates non-empty writes
unchanged; consequently a decode stage performing a zero-byte write
followed by the real data hands downstream exactly the real data. -/
theorem emptyWriteIgnorer_swallows_empty_writes :
    (∀ underlying : List Nat → Nat × Option String,
        emptyWriteIgnorerWrite underlying [] = ((0, none), false)) ∧
      (∀ (underlying : List Nat → Nat × Option String) (p : List Nat), p ≠ [] →
        emptyWriteIgnorerWrite underlying p = (underlying p, true)) ∧
      (∀ d : List Nat, (ignorerDownstream [[], d]).flatten = d) := by
  refine ⟨fun _ => rfl, ?_, ?_⟩
  · intro underlying p hp
    simp [emptyWriteIgnorerWrite, List.length_eq_zero, hp]
  · intro d
    by_cases hd : d = []
    · subst hd; rfl
    · simp [ignorerDownstream, emptyWriteIgnorerWrite, List.length_eq_zero, hd]

/-- C9 witness: delegation at a concrete non-empty write, and the
zero-byte-then-data scenario at concrete data. -/
theorem emptyWriteIgnorer_swallows_empty_writes_witness :
    emptyWriteIgnorerWrite (fun q => (q.length, none)) [5] = ((1, none), true) ∧
      (ignorerDownstream [[], [7, 8]]).flatten = [7, 8] := by
  constructor
  · have h := emptyWriteIgnorer_swallows_empty_writes.2.1
      (fun q => (q.length, none)) [5] (by decide)
    rw [h]
    rfl
  · exact emptyWriteIgnorer_swallows_empty_writes.2.2 [7, 8]

/-! ## Unfolding lemmas for the retry loop -/

/-- An exhausted run exits the loop successfully. -/
theorem extractLoop_nil (dec : Nat → ReaderMaker → Option String)
    (ext : Nat → String → Option String) (i conc : Nat) (s : ExponentialSleeper) :
    extractLoop dec ext i [] conc s = ⟨[], [], .success⟩ := by
  rw [extractLoop.eq_def]
  simp

/-- Step at concurrency above 1 with a non-empty failed subset:
concurrency halves (floor), the failed subset becomes the next run,
and one sleep of the sleeper's current duration happens in between. -/
theorem extractLoop_step_gt1 (dec : Nat → ReaderMaker → Option String)
    (ext : Nat → String → Option String) (i : Nat) (run : List ReaderMaker)
    (conc : Nat) (s : ExponentialSleeper)
    (hrun : run ≠ []) (hc : 1 < conc)
    (hf : tryExtractFiles (dec i) (ext i) run ≠ []) :
    extractLoop dec ext i run conc s =
      ⟨(conc, run) ::
         (extractLoop dec ext (i + 1) (tryExtractFiles (dec i) (ext i) run)
           (conc / 2) s.sleepStep.2).waves,
       s.sleepDuration ::
         (extractLoop dec ext (i + 1) (tryExtractFiles (dec i) (ext i) run)
           (conc / 2) s.sleepStep.2).sleeps,
       (extractLoop dec ext (i + 1) (tryExtractFiles (dec i) (ext i) run)
         (conc / 2) s.sleepStep.2).result⟩ := by
  rw [extractLoop.eq_def]
  simp only [dif_neg hrun, dif_pos hc, dif_neg hf]
  rfl

/-- Step at concurrency above 1 with an empty failed subset: the wave
is the last one, no sleep happens, and the loop returns success. -/
theorem extractLoop_step_gt1_done (dec : Nat → ReaderMaker → Option String)
    (ext : Nat → String → Option String) (i : Nat) (run : List ReaderMaker)
    (conc : Nat) (s : ExponentialSleeper)
    (hrun : run ≠ []) (hc : 1 < conc)
    (hf : tryExtractFiles (dec i) (ext i) run = []) :
    extractLoop dec ext i run conc s = ⟨[(conc, run)], [], .success⟩ := by
  rw [extractLoop.eq_def]
  simp only [dif_neg hrun, dif_pos hc, dif_pos hf]

/-- Abort at concurrency at most 1: when the whole run failed, the
aggregate error is returned at once, with no further sleep. -/
theorem extractLoop_abort_le1 (dec : Nat → ReaderMaker → Option String)
    (ext : Nat → String → Option String) (i : Nat) (run : List ReaderMaker)
    (conc : Nat) (s : ExponentialSleeper)
    (hrun : run ≠ []) (hc : ¬ 1 < conc)
    (hall : (tryExtractFiles (dec i) (ext i) run).length = run.length) :
    extractLoop dec ext i run conc s =
      ⟨[(conc, run)], [], .aggregateFailure (tryExtractFiles (dec i) (ext i) run)⟩ := by
  rw [extractLoop.eq_def]
  simp only [dif_neg hrun, dif_neg hc, dif_pos hall]

/-- Step at concurrency at most 1 with partial progress: the non-empty
failed subset is retried at the SAME concurrency after one sleep. -/
theorem extractLoop_step_le1 (dec : Nat → ReaderMaker → Option String)
    (ext : Nat → String → Option String) (i : Nat) (run : List ReaderMaker)
    (conc : Nat) (s : ExponentialSleeper)
    (hrun : run ≠ []) (hc : ¬ 1 < conc)
    (hpart : (tryExtractFiles (dec i) (ext i) run).length ≠ run.length)
    (hf : tryExtractFiles (dec i) (ext i) run ≠ []) :
    extractLoop dec ext i run conc s =
      ⟨(conc, run) ::
         (extractLoop dec ext (i + 1) (tryExtractFiles (dec i) (ext i) run)
           conc s.sleepStep.2).waves,
       s.sleepDuration ::
         (extractLoop dec ext (i + 1) (tryExtractFiles (dec i) (ext i) run)
           conc s.sleepStep.2).sleeps,
       (extractLoop dec ext (i + 1) (tryExtractFiles (dec i) (ext i) run)
         conc s.sleepStep.2).result⟩ := by
  rw [extractLoop.eq_def]
  simp only [dif_neg hrun, dif_neg hc, dif_neg hpart, dif_neg hf]
  rfl

/-- Step at concurrency at most 1 with an empty failed subset: the
wave is the last one and the loop returns success. -/
theorem extractLoop_step_le1_done (dec : Nat → ReaderMaker → Option String)
    (ext : Nat → String → Option String) (i : Nat) (run : List ReaderMaker)
    (conc : Nat) (s : ExponentialSleeper)
    (hrun : run ≠ []) (hc : ¬ 1 < conc)
    (hpart : (tryExtractFiles (dec i) (ext i) run).length ≠ run.length)
    (hf : tryExtractFiles (dec i) (ext i) run = []) :
    extractLoop dec ext i run conc s = ⟨[(conc, run)], [], .success⟩ := by
  rw [extractLoop.eq_def]
  simp only [dif_neg hrun, dif_neg hc, dif_neg hpart, dif_pos hf]

/-- A loop call on a non-empty run always records that run, at the
current concurrency, as its first wave. -/
theorem extractLoop_waves_head (dec : Nat → ReaderMaker → Option String)
    (ext : Nat → String → Option String) (i : Nat) (run : List ReaderMaker)
    (conc : Nat) (s : ExponentialSleeper) (hne : run ≠ []) :
    ∃ tl, (extractLoop dec ext i run conc s).waves = (conc, run) :: tl := by
  rw [extractLoop.eq_def]
  split
  · contradiction
  · split
    · dsimp only
      split
      · exact ⟨_, rfl⟩
      · exact ⟨_, rfl⟩
    · dsimp only
      split
      · exact ⟨_, rfl⟩
      · split
        · exact ⟨_, rfl⟩
        · exact ⟨_, rfl⟩

/-- When every attempted file fails, the failed subset is the
(deduplicated) whole run. -/
theorem tryExtractFiles_allFail (decodeErr : ReaderMaker → Option String)
    (extractErr : String → Option String) (files : List ReaderMaker)
    (hfail : ∀ f ∈ files,
      ((decodeErr f).isSome || (extractErr (extractCallName f.path)).isSome) = true) :
    tryExtractFiles decodeErr extractErr files = files.dedup := by
  unfold tryExtractFiles
  rw [List.filter_eq_self.mpr hfail]

/-- Each wave's file set is contained in the previous wave's file set,
all along a loop run (strong induction on the loop measure). -/
theorem extractLoop_waves_chain_aux (dec : Nat → ReaderMaker → Option String)
    (ext : Nat → String → Option String) :
    ∀ (n i : Nat) (run : List ReaderMaker) (conc : Nat) (s : ExponentialSleeper),
      conc + run.length ≤ n →
      List.Chain' (fun a b : Nat × List ReaderMaker => b.2 ⊆ a.2)
        ((extractLoop dec ext i run conc s).waves) := by
  intro n
  induction n with
  | zero =>
    intro i run conc s hle
    have hrun : run = [] := by
      cases run with
      | nil => rfl
      | cons a t => simp at hle
    rw [hrun, extractLoop_nil]
    exact List.chain'_nil
  | succ n ih =>
    intro i run conc s hle
    by_cases hrun : run = []
    · rw [hrun, extractLoop_nil]; exact List.chain'_nil
    · have hlen : (tryExtractFiles (dec i) (ext i) run).length ≤ run.length :=
        tryExtractFiles_length_le _ _ _
      by_cases hc : 1 < conc
      · by_cases hf : tryExtractFiles (dec i) (ext i) run = []
        · rw [extractLoop_step_gt1_done dec ext i run conc s hrun hc hf]
          exact List.chain'_singleton _
        · rw [extractLoop_step_gt1 dec ext i run conc s hrun hc hf]
          simp only [List.chain'_cons']
          constructor
          · intro b hb
            obtain ⟨tl, htl⟩ := extractLoop_waves_head dec ext (i + 1)
              (tryExtractFiles (dec i) (ext i) run) (conc / 2) s.sleepStep.2 hf
            rw [htl] at hb
            simp only [List.head?_cons, Option.mem_def, Option.some.injEq] at hb
            rw [← hb]
            exact tryExtractFiles_subset _ _ _
          · apply ih
            have : conc / 2 < conc := Nat.div_lt_self (by omega) (by omega)
            omega
      · by_cases hall : (tryExtractFiles (dec i) (ext i) run).length = run.length
        · rw [extractLoop_abort_le1 dec ext i run conc s hrun hc hall]
          exact List.chain'_singleton _
        · by_cases hf : tryExtractFiles (dec i) (ext i) run = []
          · rw [extractLoop_step_le1_done dec ext i run conc s hrun hc hall hf]
            exact List.chain'_singleton _
          · rw [extractLoop_step_le1 dec ext i run conc s hrun hc hall hf]
            simp only [List.chain'_cons']
            constructor
            · intro b hb
              obtain ⟨tl, htl⟩ := extractLoop_waves_head dec ext (i + 1)
                (tryExtractFiles (dec i) (ext i) run) conc s.sleepStep.2 hf
              rw [htl] at hb
              simp only [List.head?_cons, Option.mem_def, Option.some.injEq] at hb
              rw [← hb]
              exact tryExtractFiles_subset _ _ _
            · apply ih
              omega

/-- The sleeps of a loop run form the backoff chain starting at the
sleeper's current duration (strong induction on the loop measure). -/
theorem extractLoop_sleeps_backoff_aux (dec : Nat → ReaderMaker → Option String)
    (ext : Nat → String → Option String) :
    ∀ (n i : Nat) (run : List ReaderMaker) (conc : Nat) (s : ExponentialSleeper),
      conc + run.length ≤ n →
      isBackoffChain s.sleepDurationBound s.sleepDuration
        ((extractLoop dec ext i run conc s).sleeps) := by
  intro n
  induction n with
  | zero =>
    intro i run conc s hle
    have hrun : run = [] := by
      cases run with
      | nil => rfl
      | cons a t => simp at hle
    rw [hrun, extractLoop_nil]
    trivial
  | succ n ih =>
    intro i run conc s hle
    by_cases hrun : run = []
    · rw [hrun, extractLoop_nil]; trivial
    · have hlen : (tryExtractFiles (dec i) (ext i) run).length ≤ run.length :=
        tryExtractFiles_length_le _ _ _
      by_cases hc : 1 < conc
      · by_cases hf : tryExtractFiles (dec i) (ext i) run = []
        · rw [extractLoop_step_gt1_done dec ext i run conc s hrun hc hf]
          trivial
        · rw [extractLoop_step_gt1 dec ext i run conc s hrun hc hf]
          refine ⟨rfl, ?_⟩
          have h := ih (i + 1) (tryExtractFiles (dec i) (ext i) run) (conc / 2)
            s.sleepStep.2 (by have : conc / 2 < conc := Nat.div_lt_self (by omega) (by omega); omega)
          exact h
      · by_cases hall : (tryExtractFiles (dec i) (ext i) run).length = run.length
        · rw [extractLoop_abort_le1 dec ext i run conc s hrun hc hall]
          trivial
        · by_cases hf : tryExtractFiles (dec i) (ext i) run = []
          · rw [extractLoop_step_le1_done dec ext i run conc s hrun hc hall hf]
            trivial
          · rw [extractLoop_step_le1 dec ext i run conc s hrun hc hall hf]
            refine ⟨rfl, ?_⟩
            exact ih (i + 1) (tryExtractFiles (dec i) (ext i) run) conc
              s.sleepStep.2 (by omega)

/-- C1: with a non-empty input and configured starting concurrency 8,
if every attempted file fails in every wave, the run consists of
exactly four waves at concurrency levels 8, 4, 2, 1 (halving with
floor), each retrying the failed subset of the previous wave, and ends
in the aggregate failure whose newline-joined message contains the
path of every failed file. -/
theorem extractAll_concurrency_halving_8_4_2_1
    (decodeErr : Nat → ReaderMaker → Option String)
    (extractErr : Nat → String → Option String)
    (files : List ReaderMaker) (sleeper : ExponentialSleeper)
    (hne : files ≠ [])
    (hfail : ∀ i f,
      ((decodeErr i f).isSome || (extractErr i (extractCallName f.path)).isSome) = true) :
    (ExtractAllWithSleeper decodeErr extractErr files 8 sleeper).waves.map Prod.fst
        = [8, 4, 2, 1] ∧
      (ExtractAllWithSleeper decodeErr extractErr files 8 sleeper).waves.map Prod.snd
        = [files, files.dedup, files.dedup, files.dedup] ∧
      (ExtractAllWithSleeper decodeErr extractErr files 8 sleeper).result
        = .aggregateFailure files.dedup ∧
      ∀ f ∈ files, ∃ pre post : List Char,
        (ExtractAllWithSleeper decodeErr extractErr files 8 sleeper).result.message.data
          = pre ++ f.path.data ++ post := by
  have hd_ne : files.dedup ≠ [] := by
    simpa [List.dedup_eq_nil] using hne
  have h0 : tryExtractFiles (decodeErr 0) (extractErr 0) files = files.dedup :=
    tryExtractFiles_allFail _ _ _ (fun f _ => hfail 0 f)
  have hstep : ∀ i, tryExtractFiles (decodeErr i) (extractErr i) files.dedup
      = files.dedup := by
    intro i
    rw [tryExtractFiles_allFail _ _ _ (fun f _ => hfail i f), List.dedup_idem]
  have key : ExtractAllWithSleeper decodeErr extractErr files 8 sleeper =
      ⟨[(8, files), (8 / 2, files.dedup), (8 / 2 / 2, files.dedup),
         (8 / 2 / 2 / 2, files.dedup)],
       [sleeper.sleepDuration, sleeper.sleepStep.2.sleepDuration,
         sleeper.sleepStep.2.sleepStep.2.sleepDuration],
       .aggregateFailure files.dedup⟩ := by
    simp only [ExtractAllWithSleeper, if_neg hne]
    rw [extractLoop_step_gt1 _ _ 0 files 8 sleeper hne (by norm_num)
      (by rw [h0]; exact hd_ne), h0]
    rw [extractLoop_step_gt1 _ _ 1 files.dedup (8 / 2) _ hd_ne (by norm_num)
      (by rw [hstep 1]; exact hd_ne), hstep 1]
    rw [extractLoop_step_gt1 _ _ 2 files.dedup (8 / 2 / 2) _ hd_ne (by norm_num)
      (by rw [hstep 2]; exact hd_ne), hstep 2]
    rw [extractLoop_abort_le1 _ _ 3 files.dedup (8 / 2 / 2 / 2) _ hd_ne (by norm_num)
      (by rw [hstep 3]), hstep 3]
  refine ⟨by rw [key]; rfl, by rw [key]; rfl, by rw [key], ?_⟩
  intro f hf
  have hmem : f.path ∈ readerMakersToFilePaths files.dedup :=
    List.mem_map_of_mem _ (List.mem_dedup.mpr hf)
  obtain ⟨pre, post, hp⟩ := joinNewline_mem_substring hmem
  refine ⟨"failed to extract files:\n".data ++ pre, post ++ "\n".data, ?_⟩
  rw [key]
  simp [ExtractAllResult.message, aggregateErrorMessage, String.data_append, hp]

/-- C1 witness: a single always-failing file at starting concurrency 8. -/
theorem extractAll_concurrency_halving_8_4_2_1_witness :
    (ExtractAllWithSleeper (fun _ _ => some "e") (fun _ _ => none)
        [⟨0, "part_001.tar.lz4"⟩] 8 ⟨1, 100⟩).waves.map Prod.fst = [8, 4, 2, 1] ∧
      (ExtractAllWithSleeper (fun _ _ => some "e") (fun _ _ => none)
          [⟨0, "part_001.tar.lz4"⟩] 8 ⟨1, 100⟩).waves.map Prod.snd
        = [[⟨0, "part_001.tar.lz4"⟩], [⟨0, "part_001.tar.lz4"⟩].dedup,
           [⟨0, "part_001.tar.lz4"⟩].dedup, [⟨0, "part_001.tar.lz4"⟩].dedup] ∧
      (ExtractAllWithSleeper (fun _ _ => some "e") (fun _ _ => none)
          [⟨0, "part_001.tar.lz4"⟩] 8 ⟨1, 100⟩).result
        = .aggregateFailure [⟨0, "part_001.tar.lz4"⟩].dedup ∧
      ∃ pre post : List Char,
        (ExtractAllWithSleeper (fun _ _ => some "e") (fun _ _ => none)
            [⟨0, "part_001.tar.lz4"⟩] 8 ⟨1, 100⟩).result.message.data
          = pre ++ ("part_001.tar.lz4" : String).data ++ post :=
  have h := extractAll_concurrency_halving_8_4_2_1 (fun _ _ => some "e") (fun _ _ => none)
    [⟨0, "part_001.tar.lz4"⟩] ⟨1, 100⟩ (by decide) (fun _ _ => rfl)
  ⟨h.1, h.2.1, h.2.2.1,
    h.2.2.2 ⟨0, "part_001.tar.lz4"⟩ (List.mem_singleton.mpr rfl)⟩

/-- C2: at concurrency 1 a wave that fails entirely makes the loop
return the aggregate error at once — the trace records no sleep at all
for that call, so the sleeper is not invoked again; but a
concurrency-1 wave in which at least one file succeeded (and some
failed) sleeps once and retries exactly the failed subset, still at
concurrency 1. -/
theorem extractLoop_conc1_abort_or_keep_retrying
    (decodeErr : Nat → ReaderMaker → Option String)
    (extractErr : Nat → String → Option String) (i : Nat)
    (run : List ReaderMaker) (s : ExponentialSleeper) (hne : run ≠ []) :
    ((tryExtractFiles (decodeErr i) (extractErr i) run).length = run.length →
        extractLoop decodeErr extractErr i run 1 s =
          ⟨[(1, run)], [],
            .aggregateFailure (tryExtractFiles (decodeErr i) (extractErr i) run)⟩) ∧
      (tryExtractFiles (decodeErr i) (extractErr i) run ≠ [] →
        (tryExtractFiles (decodeErr i) (extractErr i) run).length ≠ run.length →
        extractLoop decodeErr extractErr i run 1 s =
          ⟨(1, run) ::
             (extractLoop decodeErr extractErr (i + 1)
               (tryExtractFiles (decodeErr i) (extractErr i) run) 1 s.sleepStep.2).waves,
           s.sleepDuration ::
             (extractLoop decodeErr extractErr (i + 1)
               (tryExtractFiles (decodeErr i) (extractErr i) run) 1 s.sleepStep.2).sleeps,
           (extractLoop decodeErr extractErr (i + 1)
             (tryExtractFiles (decodeErr i) (extractErr i) run) 1 s.sleepStep.2).result⟩) :=
  ⟨fun hall => extractLoop_abort_le1 decodeErr extractErr i run 1 s hne (by omega) hall,
   fun hf hpart => extractLoop_step_le1 decodeErr extractErr i run 1 s hne (by omega) hpart hf⟩

/-- C2 witness: (a) a single always-failing file at concurrency 1
aborts with zero sleeps; (b) two files at concurrency 1 where only one
fails: one sleep, then the failed subset is retried at concurrency 1
and the run ends in success. -/
theorem extractLoop_conc1_abort_or_keep_retrying_witness :
    extractLoop (fun _ _ => some "e") (fun _ _ => none) 0 [⟨0, "a.tar"⟩] 1 ⟨1, 100⟩
        = ⟨[(1, [⟨0, "a.tar"⟩])], [], .aggregateFailure [⟨0, "a.tar"⟩]⟩ ∧
      extractLoop (fun i f => if i = 0 ∧ f.id = 0 then some "e" else none)
          (fun _ _ => none) 0 [⟨0, "a.tar"⟩, ⟨1, "b.tar"⟩] 1 ⟨1, 100⟩
        = ⟨[(1, [⟨0, "a.tar"⟩, ⟨1, "b.tar"⟩]), (1, [⟨0, "a.tar"⟩])], [1], .success⟩ := by
  constructor
  · have h := (extractLoop_conc1_abort_or_keep_retrying (fun _ _ => some "e")
      (fun _ _ => none) 0 [⟨0, "a.tar"⟩] ⟨1, 100⟩ (by decide)).1 (by decide)
    rw [h]
    congr 1
  · have h := (extractLoop_conc1_abort_or_keep_retrying
      (fun i f => if i = 0 ∧ f.id = 0 then some "e" else none)
      (fun _ _ => none) 0 [⟨0, "a.tar"⟩, ⟨1, "b.tar"⟩] ⟨1, 100⟩ (by decide)).2
      (by decide) (by decide)
    rw [h]
    simp [extractLoop, tryExtractFiles, ExponentialSleeper.sleepStep, extractCallName]

/-- C8: the failed set returned by `tryExtractFiles` is a subset of
its input and holds each input handle at most once; consequently,
along any run of the retry loop, every wave's file set (which is the
previous wave's failed set) is contained in the previous wave's file
set — the failed sets shrink monotonically until the loop ends, in
success or in the permanent aggregate failure. -/
theorem tryExtractFiles_failed_sets_monotone :
    (∀ (decodeErr : ReaderMaker → Option String)
        (extractErr : String → Option String) (files : List ReaderMaker),
      tryExtractFiles decodeErr extractErr files ⊆ files ∧
        (tryExtractFiles decodeErr extractErr files).Nodup) ∧
      ∀ (decodeErr : Nat → ReaderMaker → Option String)
        (extractErr : Nat → String → Option String) (i : Nat)
        (run : List ReaderMaker) (conc : Nat) (s : ExponentialSleeper),
        List.Chain' (fun a b : Nat × List ReaderMaker => b.2 ⊆ a.2)
          ((extractLoop decodeErr extractErr i run conc s).waves) := by
  refine ⟨fun decodeErr extractErr files =>
    ⟨tryExtractFiles_subset _ _ _, tryExtractFiles_nodup _ _ _⟩, ?_⟩
  intro decodeErr extractErr i run conc s
  exact extractLoop_waves_chain_aux decodeErr extractErr (conc + run.length) i run conc s
    (le_refl _)

/-- C3 counterexample: the retry loop never resets the sleeper.  With
two files, starting concurrency 8, sleeper bounds (1, 100), where both
files fail in wave 0 and from wave 1 on only the file with id 0 fails:
wave 1 attempts both files but only `{id 0}` fails (so the id-1 file
SUCCEEDED in wave 1 — a wave that made progress), yet the sleeps are
1, 2, 4 — the sleeps that follow the progressive wave are 2 and 4,
continuing the doubling chain instead of returning to the configured
minimum 1 as the claim's reset clause requires. -/
theorem extractAll_backoff_no_reset_counterexample :
    (ExtractAllWithSleeper
          (fun i f => if i = 0 ∨ f.id = 0 then some "e" else none) (fun _ _ => none)
          [⟨0, "a.tar"⟩, ⟨1, "b.tar"⟩] 8 (NewExponentialSleeper 1 100)).waves.map Prod.snd
        = [[⟨0, "a.tar"⟩, ⟨1, "b.tar"⟩], [⟨0, "a.tar"⟩, ⟨1, "b.tar"⟩],
           [⟨0, "a.tar"⟩], [⟨0, "a.tar"⟩]] ∧
      (ExtractAllWithSleeper
            (fun i f => if i = 0 ∨ f.id = 0 then some "e" else none) (fun _ _ => none)
            [⟨0, "a.tar"⟩, ⟨1, "b.tar"⟩] 8 (NewExponentialSleeper 1 100)).sleeps
        = [1, 2, 4] ∧
      (2 : Nat) ≠ 1 ∧ (4 : Nat) ≠ 1 := by
  refine ⟨?_, ?_, by decide, by decide⟩ <;>
    simp [ExtractAllWithSleeper, extractLoop, tryExtractFiles,
      ExponentialSleeper.sleepStep, NewExponentialSleeper, extractCallName]

/-- C3 (amended): the backoff wait starts at the sleeper's current
(initially minimum) duration and after EVERY sleep doubles, capped at
the configured maximum; it is never reset during the loop — the chain
law relates every consecutive pair of sleeps, including the pair
straddling a wave that made progress. -/
theorem extractAll_backoff_doubles_capped_never_reset
    (decodeErr : Nat → ReaderMaker → Option String)
    (extractErr : Nat → String → Option String) (files : List ReaderMaker)
    (maxConcurrency lo hi : Nat) :
    isBackoffChain hi lo
      ((ExtractAllWithSleeper decodeErr extractErr files maxConcurrency
          (NewExponentialSleeper lo hi)).sleeps) := by
  by_cases hne : files = []
  · subst hne
    simp only [ExtractAllWithSleeper, if_pos rfl]
    trivial
  · simp only [ExtractAllWithSleeper, if_neg hne]
    exact extractLoop_sleeps_backoff_aux decodeErr extractErr
      (maxConcurrency + files.length) 0 files maxConcurrency
      (NewExponentialSleeper lo hi) (le_refl _)

/-! ## C10: the logical name passed to `FileExtractor.Extract` -/

/-- C10 counterexample: for the path `dir.d/file` — whose last dot
lies in a DIRECTORY component — the code passes the path unchanged
(`filepath.Ext` only inspects the final path element, so the extension
is empty), while the claim's reading ("whatever follows the last '.'
in the path") would strip down to `dir`.  The two disagree. -/
theorem extractCallName_last_dot_anywhere_counterexample :
    tryExtractFilesCalls [⟨0, "dir.d/file"⟩] = ["dir.d/file"] ∧
      extractCallNameClaim "dir.d/file" = "dir" ∧
      ("dir.d/file" : String) ≠ "dir" := by
  decide

theorem takeWhile_takeWhile {α : Type} (p q : α → Bool) (l : List α) :
    (l.takeWhile p).takeWhile q = l.takeWhile fun c => p c && q c := by
  induction l with
  | nil => rfl
  | cons c rest ih =>
    by_cases hp : p c <;> by_cases hq : q c <;>
      simp [List.takeWhile_cons, hp, hq, ih]

/-- Closed form of the `filepath.Ext` scanner: it finds a dot exactly
when the final path element (the reversed prefix up to a slash) has
one, and returns the dot with the characters it passed over, restored
to original order, in front of the accumulator. -/
theorem goExtAux_eq (rev : List Char) : ∀ acc : List Char,
    goExtAux rev acc =
      if '.' ∈ rev.takeWhile (fun c => c != '/')
      then some ('.' :: ((rev.takeWhile fun c => c != '/' && c != '.').reverse ++ acc))
      else none := by
  induction rev with
  | nil => intro acc; simp [goExtAux]
  | cons c rest ih =>
    intro acc
    by_cases hs : c = '/'
    · subst hs
      simp [goExtAux, List.takeWhile_cons]
    · by_cases hd : c = '.'
      · subst hd
        simp [goExtAux, List.takeWhile_cons, hs]
      · have hcs : (c != '/') = true := by simpa using hs
        have hcd : (c != '.') = true := by simpa using hd
        simp only [goExtAux, if_neg hs, if_neg hd, ih (c :: acc),
          List.takeWhile_cons, hcs, hcd, Bool.and_self, if_pos,
          Bool.and_true, List.mem_cons]
        have hne : ¬ ('.' = c) := fun h => hd h.symm
        by_cases hmem : '.' ∈ rest.takeWhile fun x => x != '/'
        · simp [hmem, hne, List.reverse_cons, List.append_assoc]
        · simp [hmem, hne]

/-- The embedded logical-name computation agrees with the amended
final-element description. -/
theorem extractCallName_eq_stripFinalElemExt (p : String) :
    extractCallName p = stripFinalElemExt p := by
  unfold extractCallName stripFinalElemExt goFilepathExt
  rw [goExtAux_eq]
  by_cases hdot : '.' ∈ p.data.reverse.takeWhile fun c => c != '/'
  · rw [if_pos hdot, if_pos hdot]
    simp [takeWhile_takeWhile]
  · rw [if_neg hdot, if_neg hdot]
    show String.mk (p.data.take (p.data.length - ("" : String).data.length)) = p
    cases p with
    | mk d => simp

/-- C10 (amended): the logical name `tryExtractFiles` passes to
`FileExtractor.Extract` for each file, in slice order, is the file's
path with the extension of its FINAL slash-separated element removed
(whatever follows the last dot of the final element; a path whose
final element has no dot is passed unchanged); hence the raw variant's
destination is the base directory path-joined with the path so
stripped. -/
theorem tryExtractFiles_logical_names :
    (∀ files : List ReaderMaker,
        tryExtractFilesCalls files = files.map fun f => stripFinalElemExt f.path) ∧
      ∀ (extractor : RawFileExtractor) (p : String),
        extractor.extractTarget (extractCallName p)
          = goPathJoin extractor.baseDirectory (stripFinalElemExt p) := by
  constructor
  · intro files
    unfold tryExtractFilesCalls
    exact List.map_congr_left fun f _ => extractCallName_eq_stripFinalElemExt f.path
  · intro extractor p
    unfold RawFileExtractor.extractTarget
    rw [extractCallName_eq_stripFinalElemExt]

/-- C5 witness: the empty-input rejection at concrete oracle and
sleeper values. -/
theorem extractAll_empty_input_rejected_witness :
    ExtractAllWithSleeper (fun _ _ => none) (fun _ _ => none) [] 4 ⟨1, 100⟩
        = ⟨[], [], .noFilesToExtract⟩ ∧
      ExtractAll (fun _ _ => none) (fun _ _ => none) [] 4 = ⟨[], [], .noFilesToExtract⟩ ∧
      (ExtractAllWithSleeper (fun _ _ => none) (fun _ _ => none) [] 4 ⟨1, 100⟩).result
        ≠ .success :=
  extractAll_empty_input_rejected (fun _ _ => none) (fun _ _ => none) 4 ⟨1, 100⟩

/-- C8 witness: subset, no-duplicates and the wave chain at concrete
inputs (the input holds the same handle twice; the failed set records
it once). -/
theorem tryExtractFiles_failed_sets_monotone_witness :
    tryExtractFiles (fun _ => some "e") (fun _ => none)
          [⟨0, "a.tar"⟩, ⟨0, "a.tar"⟩]
        ⊆ [⟨0, "a.tar"⟩, ⟨0, "a.tar"⟩] ∧
      (tryExtractFiles (fun _ => some "e") (fun _ => none)
          [⟨0, "a.tar"⟩, ⟨0, "a.tar"⟩]).Nodup ∧
      List.Chain' (fun a b : Nat × List ReaderMaker => b.2 ⊆ a.2)
        ((extractLoop (fun _ _ => some "e") (fun _ _ => none) 0
            [⟨0, "a.tar"⟩, ⟨1, "b.tar"⟩] 2 ⟨1, 100⟩).waves) :=
  ⟨(tryExtractFiles_failed_sets_monotone.1 _ _ _).1,
   (tryExtractFiles_failed_sets_monotone.1 _ _ _).2,
   tryExtractFiles_failed_sets_monotone.2 _ _ 0 _ 2 ⟨1, 100⟩⟩

/-- C3 amended-claim witness: the backoff chain at a concrete run. -/
theorem extractAll_backoff_doubles_capped_never_reset_witness :
    isBackoffChain 100 1
      ((ExtractAllWithSleeper (fun _ _ => some "e") (fun _ _ => none)
          [⟨0, "a.tar"⟩] 8 (NewExponentialSleeper 1 100)).sleeps) :=
  extractAll_backoff_doubles_capped_never_reset (fun _ _ => some "e")
    (fun _ _ => none) [⟨0, "a.tar"⟩] 8 1 100

/-- C10 amended-claim witness: the logical names and the raw-variant
destination at concrete inputs. -/
theorem tryExtractFiles_logical_names_witness :
    tryExtractFilesCalls [⟨0, "a/b.tar.gz"⟩, ⟨1, "dir.d/file"⟩]
        = [⟨0, "a/b.tar.gz"⟩, ⟨1, "dir.d/file"⟩].map
            (fun f : ReaderMaker => stripFinalElemExt f.path) ∧
      (RawFileExtractor.mk "/base").extractTarget (extractCallName "a/b.tar.gz")
        = goPathJoin "/base" (stripFinalElemExt "a/b.tar.gz") :=
  ⟨tryExtractFiles_logical_names.1 _, tryExtractFiles_logical_names.2 ⟨"/base"⟩ _⟩

end WalG
